import Mathlib

/-!
Verification of the azure-img-utils publication engine against its
natural-language specification.

The definitions below are shallow embeddings of the Python source:
  * `processRequest`        — cloud_partner.process_request
  * `waitOnOperation`       — AzureImage.wait_on_operation
  * `uploadImageBlob`       — AzureImage.upload_image_blob
  * `fileTypeGetSize`       — FileType.get_size
  * `deriveReleaseDate`     — the release-date derivation shared by
                              add_image_version_to_offer and
                              deprecate_image_in_offer_doc
  * `addImageVersionToOffer`— cloud_partner.add_image_version_to_offer
  * `deprecateImageInOfferDoc` — cloud_partner.deprecate_image_in_offer_doc
  * `getOfferStatus`        — AzureImage.get_offer_status

External effects (HTTP sends, polls, storage transfers) are abstracted as
streams of outcomes indexed by attempt number; sleeps and stream-opens are
recorded in the returned values so that scheduling claims can be stated.
-/

namespace AzureImgUtils

/-! ## Retrying HTTP Request Executor (cloud_partner.process_request) -/

/-- Outcome of one `requests.<method>(endpoint, **kwargs)` call: either the
transport raises `requests.exceptions.ConnectionError`, or a response with
the given HTTP status code is returned. -/
inductive SendOutcome where
  | connError : SendOutcome
  | response (status : Nat) : SendOutcome
deriving DecidableEq, Repr

/-- Result of `process_request`, instrumented with the total number of send
attempts made and the list of delays passed to `time.sleep` (in order). -/
inductive RequestResult where
  /-- A response with status 200 or 202 was obtained (loop `break`). -/
  | success (status attempts : Nat) (sleeps : List Nat) : RequestResult
  /-- `requests.exceptions.ConnectionError` re-raised with `retries <= 0`. -/
  | connectionError (attempts : Nat) (sleeps : List Nat) : RequestResult
  /-- `response.raise_for_status()` raised with `retries <= 0`. -/
  | httpError (status attempts : Nat) (sleeps : List Nat) : RequestResult
  /-- With `retries <= 0` and a status outside 200/202 for which
  `raise_for_status` does not raise (not in 400..599), the Python loop
  never terminates; we mark that case explicitly. -/
  | nonTermination : RequestResult
deriving DecidableEq, Repr

/-- The `while True` loop of `process_request`.  `send i` is the outcome of
the i-th send attempt (0-based).  `retries` and `sleep` are the loop
variables of the source; `i` counts attempts already made and `sleeps`
records delays already slept.  On a connection error the source executes
`retries -= 1; sleep = sleep * 2; continue`, where `continue` jumps back to
the top of the loop and therefore skips the `time.sleep(sleep)` statement;
on a retryable bad status it executes `retries -= 1; sleep = sleep * 2`
and then falls through to `time.sleep(sleep)`. -/
def processRequestLoop (send : Nat → SendOutcome) :
    Nat → Nat → Nat → List Nat → RequestResult
  | retries, sleep, i, sleeps =>
    match send i with
    | .connError =>
      match retries with
      | 0 => .connectionError (i + 1) sleeps
      | r + 1 => processRequestLoop send r (sleep * 2) (i + 1) sleeps
    | .response s =>
      if s = 200 ∨ s = 202 then
        .success s (i + 1) sleeps
      else
        match retries with
        | 0 => if 400 ≤ s ∧ s ≤ 599 then .httpError s (i + 1) sleeps
               else .nonTermination
        | r + 1 =>
          processRequestLoop send r (sleep * 2) (i + 1) (sleeps ++ [sleep * 2])

/-- `process_request(endpoint, headers, data, method, json_response, retries)`
with the HTTP transport abstracted as the stream `send`.  The loop starts
with `sleep = 1` and no attempts made. -/
def processRequest (send : Nat → SendOutcome) (retries : Nat) : RequestResult :=
  processRequestLoop send retries 1 0 []

/-- A send stream in which every attempt fails at the transport level. -/
def allConnErrors : Nat → SendOutcome := fun _ => .connError

theorem processRequestLoop_allConnErrors (r : Nat) :
    ∀ sleep i sleeps, processRequestLoop allConnErrors r sleep i sleeps
      = .connectionError (i + r + 1) sleeps := by
  induction r with
  | zero => intro sleep i sleeps; rfl
  | succ n ih =>
    intro sleep i sleeps
    show processRequestLoop allConnErrors n (sleep * 2) (i + 1) sleeps = _
    rw [ih]
    congr 1
    omega

/-- C1 counterexample: with a retry budget of 1 and every send attempt
failing with a connection error, `process_request` makes 2 attempts and
propagates the failure, but performs no sleep at all — contradicting the
claim that it sleeps for a doubled backoff delay before each re-attempt. -/
theorem processRequest_connError_never_sleeps :
    processRequest allConnErrors 1 = .connectionError 2 [] ∧
      ¬ ∃ d : Nat, processRequest allConnErrors 1 = .connectionError 2 [d] := by
  constructor
  · rfl
  · rintro ⟨d, h⟩
    rw [show processRequest allConnErrors 1 = .connectionError 2 [] from rfl] at h
    simp at h

/-- C1 (amended): for every retry budget N, when every send attempt fails
with a transport-level connection error, `process_request` makes exactly
N+1 send attempts and propagates the connection failure; the internal
backoff variable doubles before each re-attempt but the `continue`
statement skips `time.sleep`, so no sleep is performed on this path. -/
theorem processRequest_allConnErrors_attempts (N : Nat) :
    processRequest allConnErrors N = .connectionError (N + 1) [] := by
  show processRequestLoop allConnErrors N 1 0 [] = _
  rw [processRequestLoop_allConnErrors]
  congr 1
  omega

/-! ## Publication Job Orchestrator (AzureImage.wait_on_operation) -/

/-- One poll response from `get_operation`: the JSON dictionary, of which
`wait_on_operation` reads the `jobStatus` key (possibly absent). -/
structure Operation where
  jobStatus : Option String
  jobResult : Option String
deriving DecidableEq, Repr

/-- `operation.get('jobStatus', 'unknown')`. -/
def operationStatus (op : Operation) : String :=
  op.jobStatus.getD "unknown"

/-- The source's loop-exit test `status in ('completed', 'unkown')`.
The second literal is misspelled in the source; the embedding keeps it. -/
def isTerminalStatus (s : String) : Bool :=
  s = "completed" || s = "unkown"

/-- Result of `wait_on_operation`, instrumented with the number of poll
calls (`get_operation` invocations) made. -/
inductive WaitResult where
  /-- The polled status became terminal; the operation dict is returned. -/
  | success (op : Operation) (polls : Nat) : WaitResult
  /-- `AzureImgUtilsException('Timeout waiting for operation ... Current
  status is {status}.')` raised after the budget ran out; carries the most
  recently observed status. -/
  | timeoutError (lastStatus : String) (polls : Nat) : WaitResult
  /-- The `while` body never ran, so the `raise` statement reads the local
  variable `status` before assignment: Python raises `NameError`
  (`UnboundLocalError`), not the timeout exception. -/
  | nameError (polls : Nat) : WaitResult
deriving DecidableEq, Repr

/-- The `while time_left > 0` loop of `wait_on_operation`.  `getOp i` is
the i-th poll response.  The source's `wait` variable starts at 1 and
doubles each round, so after `k` rounds it equals `2 ^ k`; the embedding
tracks the round count `k`.  `last` is the value of the local `status`
from the previous iteration (`none` when no iteration ran yet). -/
def waitOnOperationLoop (getOp : Nat → Operation) :
    Nat → Nat → Nat → Option String → WaitResult
  | 0, _, polls, last =>
    match last with
    | some s => .timeoutError s polls
    | none => .nameError polls
  | timeLeft + 1, k, polls, _ =>
    let op := getOp polls
    let status := operationStatus op
    if isTerminalStatus status then
      .success op (polls + 1)
    else
      waitOnOperationLoop getOp (timeLeft + 1 - min (2 ^ k) (timeLeft + 1))
        (k + 1) (polls + 1) (some status)
termination_by timeLeft => timeLeft
decreasing_by
  exact Nat.sub_lt (Nat.succ_pos _)
    (lt_of_lt_of_le Nat.zero_lt_one
      (le_min (Nat.one_le_two_pow) (Nat.succ_le_succ (Nat.zero_le _))))

/-- `wait_on_operation(operation_id, timeout)` with the poll transport
abstracted as the stream `getOp`.  `time_left` starts at `timeout`, the
backoff `wait` at `1 = 2 ^ 0`, and no poll has been made. -/
def waitOnOperation (getOp : Nat → Operation) (timeout : Nat) : WaitResult :=
  waitOnOperationLoop getOp timeout 0 0 none

/-- A poll stream that always reports a running job. -/
def alwaysRunning : Nat → Operation := fun _ => ⟨some "running", none⟩

theorem waitOnOperationLoop_exhausts (getOp : Nat → Operation)
    (hnt : ∀ i, isTerminalStatus (operationStatus (getOp i)) = false) :
    ∀ t, 1 ≤ t → ∀ k polls last, ∃ p, polls + 1 ≤ p ∧
      waitOnOperationLoop getOp t k polls last
        = .timeoutError (operationStatus (getOp (p - 1))) p := by
  intro t
  induction t using Nat.strong_induction_on with
  | _ t ih =>
    intro ht k polls last
    obtain ⟨s, rfl⟩ : ∃ s, t = s + 1 := ⟨t - 1, by omega⟩
    rw [waitOnOperationLoop.eq_def]
    simp only [hnt polls, Bool.false_eq_true, if_false]
    by_cases h0 : s + 1 - min (2 ^ k) (s + 1) = 0
    · rw [h0, waitOnOperationLoop.eq_def]
      exact ⟨polls + 1, le_refl _, by simp⟩
    · have h1 : 1 ≤ min (2 ^ k) (s + 1) :=
        le_min Nat.one_le_two_pow (Nat.succ_le_succ (Nat.zero_le _))
      have hlt : s + 1 - min (2 ^ k) (s + 1) < s + 1 := by omega
      obtain ⟨p, hp, hres⟩ :=
        ih _ hlt (Nat.one_le_iff_ne_zero.mpr h0) (k + 1) (polls + 1)
          (some (operationStatus (getOp polls)))
      exact ⟨p, by omega, hres⟩

/-- C2 counterexample: `wait_on_operation` with a timeout budget of 0 and a
stream whose first poll would report a non-terminal status makes zero poll
calls (not one) and fails with an unbound-local `NameError` (the `raise`
statement reads `status`, which was never assigned), not with the timeout
exception carrying the last observed status. -/
theorem waitOnOperation_zero_budget :
    waitOnOperation alwaysRunning 0 = .nameError 0 ∧
      waitOnOperation alwaysRunning 0 ≠ .timeoutError "running" 1 := by
  constructor
  · rw [waitOnOperation, waitOnOperationLoop.eq_def]
  · rw [waitOnOperation, waitOnOperationLoop.eq_def]
    simp

/-- C2 (amended): with a timeout budget of 0 the `while` body never runs,
so no poll is made and the `raise` fails with `NameError`; for every
positive budget, if every polled status is non-terminal (the source treats
exactly `'completed'` and the literal `'unkown'` as terminal), the budget
is exhausted and the timeout exception is raised carrying the most
recently observed status, after at least one poll. -/
theorem waitOnOperation_timeout_behaviour (getOp : Nat → Operation)
    (timeout : Nat)
    (hnt : ∀ i, isTerminalStatus (operationStatus (getOp i)) = false) :
    (timeout = 0 → waitOnOperation getOp timeout = .nameError 0) ∧
      (1 ≤ timeout → ∃ p, 1 ≤ p ∧
        waitOnOperation getOp timeout
          = .timeoutError (operationStatus (getOp (p - 1))) p) := by
  constructor
  · intro h
    subst h
    rw [waitOnOperation, waitOnOperationLoop.eq_def]
  · intro h
    obtain ⟨p, hp, hres⟩ := waitOnOperationLoop_exhausts getOp hnt timeout h 0 0 none
    exact ⟨p, hp, hres⟩

/-- C2 amended-claim witness: concrete run with budget 1 and an
always-running poll stream: the timeout exception carries the running
status after one poll. -/
theorem waitOnOperation_timeout_behaviour_witness :
    ∃ p, 1 ≤ p ∧
      waitOnOperation alwaysRunning 1
        = .timeoutError (operationStatus (alwaysRunning (p - 1))) p :=
  (waitOnOperation_timeout_behaviour alwaysRunning 1 (fun _ => rfl)).2 (le_refl 1)

/-! ## Resilient Artifact Transfer (AzureImage.upload_image_blob,
FileType.get_size) -/

/-- The distinct Python exception classes `upload_image_blob` can raise.
`alreadyExists` and `configError` are plain `Exception`s; `storageError`
is `AzureImgUtilsStorageException`; `fileNotFound` is
`AzureImgUtilsException` (wrapping `FileNotFoundError`). -/
inductive UploadError where
  | alreadyExists (msg : String) : UploadError
  | configError (msg : String) : UploadError
  | storageError (msg : String) : UploadError
  | fileNotFound (msg : String) : UploadError
deriving DecidableEq, Repr

deriving instance DecidableEq for Except

/-- Result of `upload_image_blob`, instrumented with the number of fresh
stream opens (`with open_image(image_file, 'rb')`, always reading from the
start of the file) and the number of `blob_client.upload_blob` calls. -/
structure UploadOutcome where
  result : Except UploadError String
  opens : Nat
  sends : Nat
deriving DecidableEq, Repr

/-- The `while max_attempts > 0` loop of `upload_image_blob`.  `attempt i`
is the outcome of the i-th `upload_blob` call (0-based): `.ok ()` returns
the blob name; `.error msg` is caught, stored in `msg`, and decrements
`max_attempts`.  Each iteration opens the source stream afresh before the
call, so opens and sends advance together.  When the budget reaches 0 the
loop exits and `AzureImgUtilsStorageException` is raised carrying the last
stored message. -/
def uploadLoop (attempt : Nat → Except String Unit) (imageFile blobName : String) :
    Nat → Nat → String → UploadOutcome
  | 0, i, msg =>
    ⟨.error (.storageError ("Unable to upload " ++ imageFile ++ ": " ++ msg)), i, i⟩
  | k + 1, i, _ =>
    match attempt i with
    | .ok _ => ⟨.ok blobName, i + 1, i + 1⟩
    | .error emsg => uploadLoop attempt imageFile blobName k (i + 1) emsg

/-- `upload_image_blob(image_file, max_workers, max_attempts, blob_name,
force_replace_image, is_page_blob, expand_image)` with the storage layer
abstracted: `blobExists` is the result of `image_blob_exists`,
`fileExists` tells whether opening the source raises `FileNotFoundError`,
and `attempt` is the stream of `upload_blob` outcomes.  The source checks
the pre-existing blob first, then validates `max_attempts <= 0`, and only
then opens the source inside the retry loop. -/
def uploadImageBlob (blobExists forceReplace fileExists : Bool)
    (maxAttempts : Int) (attempt : Nat → Except String Unit)
    (imageFile blobName : String) : UploadOutcome :=
  if blobExists && !forceReplace then
    ⟨.error (.alreadyExists ("Image " ++ blobName ++ " already exists. To replace an existing image use force_replace_image option.")), 0, 0⟩
  else if maxAttempts ≤ 0 then
    ⟨.error (.configError ("max_attempts parameter value has to be >0, " ++ toString maxAttempts ++ " provided.")), 0, 0⟩
  else if !fileExists then
    ⟨.error (.fileNotFound ("Image file " ++ imageFile ++ " not found. Ensure the path to the file is correct.")), 0, 0⟩
  else
    uploadLoop attempt imageFile blobName maxAttempts.toNat 0 ""

theorem uploadLoop_exhaust (attempt : Nat → Except String Unit)
    (f b : String) (msgs : Nat → String) :
    ∀ k i m0, (∀ j, i ≤ j → j < i + (k + 1) → attempt j = .error (msgs j)) →
      uploadLoop attempt f b (k + 1) i m0
        = ⟨.error (.storageError ("Unable to upload " ++ f ++ ": " ++ msgs (i + k))),
            i + k + 1, i + k + 1⟩ := by
  intro k
  induction k with
  | zero =>
    intro i m0 h
    show (match attempt i with
      | .ok _ => (⟨.ok b, i + 1, i + 1⟩ : UploadOutcome)
      | .error emsg => uploadLoop attempt f b 0 (i + 1) emsg) = _
    rw [h i (le_refl i) (by omega)]
    simp [uploadLoop]
  | succ n ih =>
    intro i m0 h
    show (match attempt i with
      | .ok _ => (⟨.ok b, i + 1, i + 1⟩ : UploadOutcome)
      | .error emsg => uploadLoop attempt f b (n + 1) (i + 1) emsg) = _
    rw [h i (le_refl i) (by omega)]
    show uploadLoop attempt f b (n + 1) (i + 1) (msgs i) = _
    rw [ih (i + 1) (msgs i) (fun j h1 h2 => h j (by omega) (by omega))]
    have e1 : i + 1 + n = i + (n + 1) := by omega
    rw [e1]

theorem uploadLoop_success (attempt : Nat → Except String Unit)
    (f b : String) :
    ∀ s k i m0, s < k →
      (∀ j, i ≤ j → j < i + s → ∃ e, attempt j = .error e) →
      attempt (i + s) = .ok () →
      uploadLoop attempt f b k i m0 = ⟨.ok b, i + s + 1, i + s + 1⟩ := by
  intro s
  induction s with
  | zero =>
    intro k i m0 hk _ hok
    obtain ⟨k', rfl⟩ : ∃ k', k = k' + 1 := ⟨k - 1, by omega⟩
    show (match attempt i with
      | .ok _ => (⟨.ok b, i + 1, i + 1⟩ : UploadOutcome)
      | .error emsg => uploadLoop attempt f b k' (i + 1) emsg) = _
    rw [show attempt i = .ok () from hok]
  | succ n ih =>
    intro k i m0 hk hfail hok
    obtain ⟨k', rfl⟩ : ∃ k', k = k' + 1 := ⟨k - 1, by omega⟩
    obtain ⟨e, he⟩ := hfail i (le_refl i) (by omega)
    show (match attempt i with
      | .ok _ => (⟨.ok b, i + 1, i + 1⟩ : UploadOutcome)
      | .error emsg => uploadLoop attempt f b k' (i + 1) emsg) = _
    rw [he]
    show uploadLoop attempt f b k' (i + 1) e = _
    rw [ih k' (i + 1) e (by omega)
      (fun j h1 h2 => hfail j (by omega) (by omega))
      (by rw [show i + 1 + n = i + (n + 1) from by omega]; exact hok)]
    have e1 : i + 1 + n = i + (n + 1) := by omega
    rw [e1]

/-- C3: for every upload call with a budget of k >= 1 attempts that gets
past the pre-existing-blob check: if every one of the k upload attempts
fails, the source stream is opened afresh from the start on each attempt,
exactly k attempts are made, and `AzureImgUtilsStorageException` is raised
carrying the last underlying error's message; if the i-th attempt
(1-based, i <= k) is the first to succeed, the blob name is returned and
exactly i attempts (and i fresh opens) were made. -/
theorem uploadImageBlob_retry (k : Nat) (hk : 1 ≤ k)
    (attempt : Nat → Except String Unit) (msgs : Nat → String)
    (f b : String) (bE fR : Bool) (hbe : bE = false ∨ fR = true) :
    ((∀ j, j < k → attempt j = .error (msgs j)) →
      uploadImageBlob bE fR true (k : Int) attempt f b
        = ⟨.error (.storageError ("Unable to upload " ++ f ++ ": " ++ msgs (k - 1))),
            k, k⟩) ∧
    (∀ i, 1 ≤ i → i ≤ k →
      (∀ j, j < i - 1 → ∃ e, attempt j = .error e) →
      attempt (i - 1) = .ok () →
      uploadImageBlob bE fR true (k : Int) attempt f b = ⟨.ok b, i, i⟩) := by
  have hguard : (bE && !fR) = false := by
    rcases hbe with h | h <;> simp [h]
  have hpos : ¬ ((k : Int) ≤ 0) := by
    simp only [not_le]
    exact_mod_cast hk
  constructor
  · intro hall
    rw [uploadImageBlob, hguard, if_neg (by simp), if_neg hpos]
    simp only [Bool.not_true, if_neg (by simp : ¬ (false = true))]
    obtain ⟨k', rfl⟩ : ∃ k', k = k' + 1 := ⟨k - 1, by omega⟩
    rw [show ((k' + 1 : Nat) : Int).toNat = k' + 1 by omega]
    rw [uploadLoop_exhaust attempt f b msgs k' 0 ""
      (fun j h1 h2 => hall j (by omega))]
    have e1 : (0 : Nat) + k' = k' := by omega
    have e2 : k' + 1 - 1 = k' := by omega
    rw [e1, e2]
  · intro i hi1 hik hfail hok
    rw [uploadImageBlob, hguard, if_neg (by simp), if_neg hpos]
    simp only [Bool.not_true, if_neg (by simp : ¬ (false = true))]
    rw [show ((k : Nat) : Int).toNat = k by omega]
    have := uploadLoop_success attempt f b (i - 1) k 0 ""
      (by omega) (fun j h1 h2 => hfail j (by omega))
      (by rw [show 0 + (i - 1) = i - 1 from by omega]; exact hok)
    rw [this]
    have e1 : 0 + (i - 1) + 1 = i := by omega
    rw [e1]

/-- C3 witness: budget 2, first attempt fails with message e0, second
succeeds: blob name returned after exactly 2 attempts and 2 opens. -/
def witnessAttempt : Nat → Except String Unit :=
  fun i => if i = 0 then .error "e0" else .ok ()

theorem uploadImageBlob_retry_witness :
    uploadImageBlob false false true (2 : Int) witnessAttempt "f.raw" "b.raw"
      = ⟨.ok "b.raw", 2, 2⟩ :=
  (uploadImageBlob_retry 2 (by omega) witnessAttempt (fun _ => "e0")
    "f.raw" "b.raw" false false (Or.inl rfl)).2 2 (by omega) (by omega)
    (fun j hj => ⟨"e0", by interval_cases j <;> rfl⟩) rfl

/-- C8: for every non-positive `max_attempts`, when the call gets past the
pre-existing-blob check, `upload_image_blob` raises a configuration error
(a plain `Exception` with the `max_attempts parameter value has to be >0`
message) with zero source-stream opens and zero transfer attempts — before
the source file would even be opened — and this error is a different
exception from the `AzureImgUtilsStorageException` raised when a positive
budget is exhausted. -/
theorem uploadImageBlob_nonpositive_attempts (m : Int) (hm : m ≤ 0)
    (bE fR fE : Bool) (hbe : bE = false ∨ fR = true)
    (attempt : Nat → Except String Unit) (f b : String) :
    uploadImageBlob bE fR fE m attempt f b
      = ⟨.error (.configError ("max_attempts parameter value has to be >0, "
          ++ toString m ++ " provided.")), 0, 0⟩ ∧
    ∀ s, UploadError.configError ("max_attempts parameter value has to be >0, "
        ++ toString m ++ " provided.") ≠ .storageError s := by
  have hguard : (bE && !fR) = false := by
    rcases hbe with h | h <;> simp [h]
  constructor
  · rw [uploadImageBlob, hguard, if_neg (by simp), if_pos hm]
  · intro s h
    cases h

/-- C8 witness: `max_attempts = -3` yields the configuration error with no
opens and no sends. -/
theorem uploadImageBlob_nonpositive_attempts_witness :
    uploadImageBlob false false true (-3) witnessAttempt "f.raw" "b.raw"
      = ⟨.error (.configError ("max_attempts parameter value has to be >0, "
          ++ toString (-3 : Int) ++ " provided.")), 0, 0⟩ :=
  (uploadImageBlob_nonpositive_attempts (-3) (by omega) false false true
    (Or.inl rfl) witnessAttempt "f.raw" "b.raw").1

/-- A local source file as the transfer component sees it: whether the
`file` magic reports an XZ compressed stream, the raw on-disk size
(`os.path.getsize`), and the size obtained by seeking an `lzma` stream to
its end (the decompressed size). -/
structure SourceFile where
  xz : Bool
  rawSize : Nat
  decompressedSize : Nat
deriving DecidableEq, Repr

/-- `FileType.get_size`: if `is_xz()` the decompressed size (the lzma
stream is seeked to its end and `tell()` returned), else the raw file
size.  Note the method takes no expansion flag. -/
def fileTypeGetSize (f : SourceFile) : Nat :=
  if f.xz then f.decompressedSize else f.rawSize

/-- The `length=system_image_file_type.get_size()` argument passed to
`blob_client.upload_blob` by `upload_image_blob`; the `expand_image` flag
does not enter the computation. -/
def declaredUploadLength (f : SourceFile) (expandImage : Bool) : Nat :=
  fileTypeGetSize f

/-- How `upload_image_blob` opens the source: `lzma.LZMAFile` exactly when
the file is XZ and expansion is requested, plain `open` otherwise. -/
inductive OpenMode where
  | lzmaExpand : OpenMode
  | rawOpen : OpenMode
deriving DecidableEq, Repr

/-- `open_image` selection in `upload_image_blob`. -/
def uploadOpenMode (f : SourceFile) (expandImage : Bool) : OpenMode :=
  if f.xz && expandImage then .lzmaExpand else .rawOpen

/-- C4 counterexample: an XZ-compressed file of raw size 100 whose stream
decompresses to 250 bytes, uploaded with expansion NOT requested: the
declared payload length is 250 (the decompressed size), not the raw
on-disk size 100 the claim requires, even though the stream is opened raw. -/
theorem declaredUploadLength_xz_no_expand :
    declaredUploadLength ⟨true, 100, 250⟩ false = 250 ∧
      declaredUploadLength ⟨true, 100, 250⟩ false
        ≠ (⟨true, 100, 250⟩ : SourceFile).rawSize ∧
      uploadOpenMode ⟨true, 100, 250⟩ false = .rawOpen := by
  refine ⟨rfl, ?_, rfl⟩
  decide

/-- C4 (amended): the payload length declared to `upload_blob` equals the
decompressed size whenever the file is XZ-compressed — whether or not
expansion is requested — and equals the raw on-disk file size only for
non-XZ files; the expansion flag affects only how the stream is opened. -/
theorem declaredUploadLength_cases (f : SourceFile) (e : Bool) :
    (f.xz = true → declaredUploadLength f e = f.decompressedSize) ∧
      (f.xz = false → declaredUploadLength f e = f.rawSize) := by
  constructor <;> intro h <;>
    simp [declaredUploadLength, fileTypeGetSize, h]

/-- C4 amended-claim witness: the XZ case with expansion off declares the
decompressed size. -/
theorem declaredUploadLength_cases_witness :
    declaredUploadLength ⟨true, 100, 250⟩ false = 250 :=
  (declaredUploadLength_cases ⟨true, 100, 250⟩ false).1 rfl

/-! ## Release-date derivation (cloud_partner.add_image_version_to_offer
and deprecate_image_in_offer_doc, `re.findall` + `datetime.strptime`) -/

/-- A calendar date as `datetime.date` holds it. -/
structure Date where
  year : Nat
  month : Nat
  day : Nat
deriving DecidableEq, Repr

/-- Gregorian leap-year rule, as the `datetime` module implements it. -/
def isLeapYear (y : Nat) : Bool :=
  (y % 4 = 0 && y % 100 ≠ 0) || y % 400 = 0

/-- Days in a month of a given year. -/
def daysInMonth (y m : Nat) : Nat :=
  if m = 2 then (if isLeapYear y then 29 else 28)
  else if m = 4 ∨ m = 6 ∨ m = 9 ∨ m = 11 then 30
  else 31

/-- The leftmost match of `re.findall(r'\d{8}', name)` — the only element
the source reads (`matches[0]`); `if matches:` is equivalent to this being
`some`.  The regex engine scans left to right and matches 8 consecutive
digits at the first position where that is possible. -/
def findEight : List Char → Option (List Char)
  | [] => none
  | c :: rest =>
    if ((c :: rest).take 8).length = 8 && ((c :: rest).take 8).all Char.isDigit
    then some ((c :: rest).take 8)
    else findEight rest

/-- Numeric value of a decimal digit character. -/
def digitVal (c : Char) : Nat := c.toNat - 48

/-- Value of a string of decimal digits. -/
def digitsToNat (l : List Char) : Nat :=
  l.foldl (fun a c => a * 10 + digitVal c) 0

/-- `datetime.strptime(s, '%Y%m%d').date()` on an 8-digit string: the
first four digits are the year, then two for the month, two for the day;
`strptime` raises `ValueError` unless `1 <= year <= 9999` (the `datetime`
range) and month and day denote a real calendar date. -/
def parseYMD (l : List Char) : Option Date :=
  let y := digitsToNat (l.take 4)
  let m := digitsToNat ((l.drop 4).take 2)
  let d := digitsToNat (l.drop 6)
  if 1 ≤ y ∧ y ≤ 9999 ∧ 1 ≤ m ∧ m ≤ 12 ∧ 1 ≤ d ∧ d ≤ daysInMonth y m
  then some ⟨y, m, d⟩ else none

/-- Zero-padded decimal rendering of width `w`. -/
def padNat (w n : Nat) : String :=
  let s := toString n
  String.mk (List.replicate (w - s.length) '0') ++ s

/-- `release_date.strftime("%Y.%m.%d")` (zero-padded fields). -/
def formatDotted (d : Date) : String :=
  padNat 4 d.year ++ "." ++ padNat 2 d.month ++ "." ++ padNat 2 d.day

/-- `release_date.strftime("%m/%d/%Y")`, the `publishedDate` field. -/
def formatSlashed (d : Date) : String :=
  padNat 2 d.month ++ "/" ++ padNat 2 d.day ++ "/" ++ padNat 4 d.year

/-- The release-date computation at the top of
`add_image_version_to_offer` (and `deprecate_image_in_offer_doc`):
`matches = re.findall(r'\d{8}', image_name)`; if non-empty,
`datetime.strptime(matches[0], '%Y%m%d').date()` — whose `ValueError`
propagates when the leftmost 8-digit run is not a real date — else
`date.today()` (passed in as `today`). -/
def deriveReleaseDate (imageName : String) (today : Date) : Except String Date :=
  match findEight imageName.data with
  | none => .ok today
  | some ds =>
    match parseYMD ds with
    | some d => .ok d
    | none => .error ("ValueError: time data " ++ String.mk ds
        ++ " does not match format %Y%m%d")

/-- The version key (`release`) under which the new image version is
stored: the derived release date formatted `%Y.%m.%d`. -/
def deriveReleaseKey (imageName : String) (today : Date) : Except String String :=
  (deriveReleaseDate imageName today).map formatDotted

/-- C5 counterexample: the image name `120230101` contains the 8-digit
substring `20230101`, parseable as the date 2023-01-01, but the leftmost
8-digit run is `12023010` (year 1202, month 30), which `strptime` rejects:
the derivation raises `ValueError` instead of producing `2023.01.01`. -/
theorem deriveReleaseKey_first_run_wins :
    (∃ e, deriveReleaseKey "120230101" ⟨2026, 10, 12⟩ = .error e) ∧
      deriveReleaseKey "120230101" ⟨2026, 10, 12⟩ ≠ .ok "2023.01.01" ∧
      "20230101".data = ("120230101".data).drop 1 ∧
      parseYMD "20230101".data = some ⟨2023, 1, 1⟩ ∧
      formatDotted ⟨2023, 1, 1⟩ = "2023.01.01" := by
  refine ⟨⟨_, rfl⟩, ?_, rfl, rfl, rfl⟩
  decide

/-- C5 (amended): the version key is derived from the leftmost 8-digit run
in the image name: when that run parses as a valid `YYYYMMDD` date the key
is that date formatted `YYYY.MM.DD`, regardless of surrounding characters;
when it does not parse, `strptime`'s `ValueError` propagates (even if a
later 8-digit substring would parse); when the name contains no 8-digit
substring the key is today's date formatted `YYYY.MM.DD`. -/
theorem deriveReleaseKey_behaviour (name : String) (today : Date) :
    (findEight name.data = none →
      deriveReleaseKey name today = .ok (formatDotted today)) ∧
    (∀ ds d, findEight name.data = some ds → parseYMD ds = some d →
      deriveReleaseKey name today = .ok (formatDotted d)) ∧
    (∀ ds, findEight name.data = some ds → parseYMD ds = none →
      ∃ e, deriveReleaseKey name today = .error e) := by
  refine ⟨fun h => ?_, fun ds d h1 h2 => ?_, fun ds h1 h2 => ?_⟩
  · simp [deriveReleaseKey, deriveReleaseDate, h, Except.map]
  · simp [deriveReleaseKey, deriveReleaseDate, h1, h2, Except.map]
  · refine ⟨"ValueError: time data " ++ String.mk ds
      ++ " does not match format %Y%m%d", ?_⟩
    simp [deriveReleaseKey, deriveReleaseDate, h1, h2, Except.map]

/-- C5 amended-claim witness: `image123-v20111111` yields the key
`2011.11.11`, regardless of the surrounding characters, and a name with no
8-digit run yields today's date. -/
theorem deriveReleaseKey_behaviour_witness :
    deriveReleaseKey "image123-v20111111" ⟨2026, 10, 12⟩ = .ok "2011.11.11" ∧
      deriveReleaseKey "sles-15-sp6" ⟨2026, 10, 12⟩ = .ok "2026.10.12" :=
  ⟨(deriveReleaseKey_behaviour "image123-v20111111" ⟨2026, 10, 12⟩).2.1
      "20111111".data ⟨2011, 11, 11⟩ rfl rfl,
    (deriveReleaseKey_behaviour "sles-15-sp6" ⟨2026, 10, 12⟩).1 rfl⟩

/-! ## Offer Document Repository (cloud_partner.add_image_version_to_offer,
deprecate_image_in_offer_doc) -/

/-- One image-version entry of a plan's vm-images dictionary, as
constructed by `add_image_version_to_offer` (the `lunVhdDetails: []` field
is a constant and omitted). -/
structure VmImage where
  osVhdUrl : String
  label : String
  mediaName : String
  publishedDate : String
  description : String
  showInGui : Bool
deriving DecidableEq, Repr

/-- A Python dict keyed by release string, modelled as an association list
in insertion order. -/
abbrev VmImagesMap := List (String × VmImage)

/-- `m.get(k)` / `m[k]`: the first entry with the given key. -/
def lookupKey (m : VmImagesMap) (k : String) : Option VmImage :=
  match m with
  | [] => none
  | (k', v) :: rest => if k' = k then some v else lookupKey rest k

/-- Python dict assignment `m[k] = v`: replaces the entry in place when
the key is present, appends a new entry otherwise. -/
def setKey (m : VmImagesMap) (k : String) (v : VmImage) : VmImagesMap :=
  if m.any (fun p => p.1 = k) then
    m.map (fun p => if p.1 = k then (k, v) else p)
  else m ++ [(k, v)]

/-- A disk-generation plan entry (`doc_sku['diskGenerations']` element):
`planId` plus the optional vm-images dictionary (absent until the first
version is added to it). -/
structure GenPlan where
  planId : String
  vmImages : Option VmImagesMap
deriving DecidableEq, Repr

/-- A plan (`doc['definition']['plans']` element): `planId`, the optional
vm-images dictionary under the `vm_images_key`, and its disk generations. -/
structure PlanSku where
  planId : String
  vmImages : Option VmImagesMap
  diskGenerations : List GenPlan
deriving DecidableEq, Repr

/-- The offer doc, reduced to the `definition.plans` list the two mutation
functions traverse. -/
structure OfferDoc where
  plans : List PlanSku
deriving DecidableEq, Repr

/-- The `version` dictionary built by `add_image_version_to_offer`. -/
def mkVersion (blobUrl label imageName description : String) (rd : Date) : VmImage :=
  ⟨blobUrl, label, imageName, formatSlashed rd, description, true⟩

/-- The inner `for plan in doc_sku['diskGenerations']` loop with its
`for ... else`: update the first generation plan whose `planId` equals the
generation id (creating its vm-images dict if absent) and stop; `none`
means the loop fell through and the generation-id exception is raised. -/
def updateGenPlans (gens : List GenPlan) (genId release : String)
    (gv : VmImage) : Option (List GenPlan) :=
  match gens with
  | [] => none
  | p :: rest =>
    if p.planId = genId then
      some ({ p with vmImages := some (setKey (p.vmImages.getD []) release gv) } :: rest)
    else
      (updateGenPlans rest genId release gv).map (fun l => p :: l)

/-- The outer `for doc_sku in doc['definition']['plans']` loop with its
`for ... else`: the first plan whose `planId` equals the sku receives the
new version under the release key (its vm-images dict created if absent);
with a generation id the disk-generation list is updated too.  `genInfo`
carries the generation id together with the `generation_version` copy
whose `mediaName` is suffixed.  An exhausted loop raises the
no-match-for-SKU exception. -/
def addPlans (plans : List PlanSku) (sku release : String) (version : VmImage)
    (genInfo : Option (String × VmImage)) : Except String (List PlanSku) :=
  match plans with
  | [] => .error ("No Match found for SKU: " ++ sku ++ ". Offer doc not updated properly.")
  | p :: rest =>
    if p.planId = sku then
      let p1 : PlanSku :=
        { p with vmImages := some (setKey (p.vmImages.getD []) release version) }
      match genInfo with
      | none => .ok (p1 :: rest)
      | some (gid, gv) =>
        match updateGenPlans p1.diskGenerations gid release gv with
        | some gens => .ok ({ p1 with diskGenerations := gens } :: rest)
        | none => .error ("No Match found for Generation ID: " ++ gid
            ++ ". Offer doc not updated properly.")
    else
      (addPlans rest sku release version genInfo).map (fun l => p :: l)

/-- `add_image_version_to_offer(doc, blob_url, description, image_name,
label, sku, vm_images_key, generation_id,
cloud_image_name_generation_suffix)` with `date.today()` passed in as
`today`.  The generation version's `mediaName` is
`'-'.join([image_name, cloud_image_name_generation_suffix or
generation_id])`. -/
def addImageVersionToOffer (doc : OfferDoc)
    (blobUrl description imageName label sku : String)
    (generationId suffix : Option String) (today : Date) :
    Except String OfferDoc :=
  match deriveReleaseDate imageName today with
  | .error e => .error e
  | .ok rd =>
    let version := mkVersion blobUrl label imageName description rd
    let release := formatDotted rd
    let genInfo := generationId.map (fun gid =>
      (gid, { version with mediaName := imageName ++ "-" ++ suffix.getD gid }))
    (addPlans doc.plans sku release version genInfo).map OfferDoc.mk

/-- Result of `deprecate_image_in_offer_doc`: the (possibly unchanged) doc
together with the messages sent to `log_callback`, or one of the two ways
the call can raise. -/
inductive DeprecateResult where
  | ok (doc : OfferDoc) (logs : List String) : DeprecateResult
  | noMatch (msg : String) : DeprecateResult
  | parseError (msg : String) : DeprecateResult
deriving DecidableEq, Repr

/-- The conjunctive condition of the deprecation loop,
`doc_sku['planId'] == sku and doc_sku.get(vm_images_key) and
doc_sku[vm_images_key].get(release)`, returning the release entry when all
three conjuncts are truthy (a missing or empty dict is falsy). -/
def depLookup (p : PlanSku) (sku release : String) : Option VmImage :=
  if p.planId = sku ∧ ¬ (p.vmImages.getD []).isEmpty then
    lookupKey (p.vmImages.getD []) release
  else none

/-- The mutation `image['showInGui'] = False` performed on the matched
plan's release entry (the entry is a reference into the plan's dict, so
the assignment rewrites the entry in place). -/
def depUpdatePlan (p : PlanSku) (release : String) (img : VmImage) : PlanSku :=
  let img2 : VmImage := { img with showInGui := false }
  { p with vmImages := some (setKey (p.vmImages.getD []) release img2) }

/-- The `for doc_sku in doc['definition']['plans']` loop of
`deprecate_image_in_offer_doc`: at the first plan satisfying `depLookup`
the entry's `showInGui` is set to `False` when its `mediaName` equals the
image name, otherwise the doc is left as is and a message is logged; in
both cases the loop `break`s.  `none` means the loop fell through (the
no-match exception). -/
def deprecatePlans (plans : List PlanSku) (imageName sku release : String) :
    Option (List PlanSku × List String) :=
  match plans with
  | [] => none
  | p :: rest =>
    match depLookup p sku release with
    | some img =>
      if img.mediaName = imageName then
        some (depUpdatePlan p release img :: rest, [])
      else
        some (p :: rest,
          ["Deprecation image name, " ++ imageName
            ++ " does match the mediaName attribute, " ++ img.mediaName ++ "."])
    | none =>
      (deprecatePlans rest imageName sku release).map (fun r => (p :: r.1, r.2))

/-- `deprecate_image_in_offer_doc(doc, image_name, sku, log_callback,
vm_images_key)`: an image name with no 8-digit run returns the doc
unchanged (the release key cannot be generated); an unparseable leftmost
run propagates `strptime`'s `ValueError`; otherwise the plans loop runs
and a fall-through raises `AzureCloudPartnerException`. -/
def deprecateImageInOfferDoc (doc : OfferDoc) (imageName sku : String) :
    DeprecateResult :=
  match findEight imageName.data with
  | none => .ok doc []
  | some ds =>
    match parseYMD ds with
    | none => .parseError ("ValueError: time data " ++ String.mk ds
        ++ " does not match format %Y%m%d")
    | some rd =>
      match deprecatePlans doc.plans imageName sku (formatDotted rd) with
      | some r => .ok ⟨r.1⟩ r.2
      | none => .noMatch ("No Match found for image in the SKU: " ++ sku
          ++ ". Offer doc not updated properly.")

/-! ### Association-map lemmas (Python dict semantics) -/

/-- Key uniqueness of an association list — automatic for a Python dict. -/
def keysNodup (m : VmImagesMap) : Prop := (m.map Prod.fst).Nodup

instance (m : VmImagesMap) : Decidable (keysNodup m) :=
  inferInstanceAs (Decidable (List.Nodup _))

theorem any_of_lookupKey (k : String) (v : VmImage) :
    ∀ m : VmImagesMap, lookupKey m k = some v →
      m.any (fun p => p.1 = k) = true := by
  intro m
  induction m with
  | nil => intro h; cases h
  | cons q rest ih =>
    intro h
    rw [lookupKey] at h
    by_cases hq : q.1 = k
    · simp [List.any_cons, hq]
    · rw [if_neg hq] at h
      simp [List.any_cons, ih h]

theorem map_replace_of_absent (k : String) (v : VmImage) :
    ∀ m : VmImagesMap, (∀ p ∈ m, p.1 ≠ k) →
      m.map (fun p => if p.1 = k then (k, v) else p) = m := by
  intro m
  induction m with
  | nil => intro _; rfl
  | cons q rest ih =>
    intro h
    simp only [List.map_cons, if_neg (h q (List.mem_cons_self q rest))]
    rw [ih (fun p hp => h p (List.mem_cons_of_mem q hp))]

theorem keys_map_replace (k : String) (v : VmImage) :
    ∀ m : VmImagesMap,
      (m.map (fun p => if p.1 = k then (k, v) else p)).map Prod.fst
        = m.map Prod.fst := by
  intro m
  induction m with
  | nil => rfl
  | cons q rest ih =>
    simp only [List.map_cons, ih]
    by_cases hq : q.1 = k
    · simp [hq]
    · simp [hq]

theorem lookupKey_map_replace (k : String) (v : VmImage) :
    ∀ m : VmImagesMap, m.any (fun p => p.1 = k) = true →
      lookupKey (m.map (fun p => if p.1 = k then (k, v) else p)) k = some v := by
  intro m
  induction m with
  | nil => intro h; cases h
  | cons q rest ih =>
    intro h
    by_cases hq : q.1 = k
    · simp only [List.map_cons, if_pos hq]
      rw [lookupKey]
      simp
    · simp only [List.any_cons, decide_eq_true_eq, hq, decide_False,
        Bool.false_or] at h
      simp only [List.map_cons, if_neg hq]
      rw [lookupKey, if_neg hq]
      exact ih h

/-- Dict assignment at a present key neither adds nor removes keys and
makes lookup return the new value. -/
theorem setKey_present (m : VmImagesMap) (k : String) (v : VmImage)
    (h : m.any (fun p => p.1 = k) = true) :
    (setKey m k v).map Prod.fst = m.map Prod.fst ∧
      lookupKey (setKey m k v) k = some v := by
  rw [setKey, if_pos h]
  exact ⟨keys_map_replace k v m, lookupKey_map_replace k v m h⟩

/-- Dict assignment preserves key uniqueness. -/
theorem keysNodup_setKey (m : VmImagesMap) (k : String) (v : VmImage)
    (h : keysNodup m) : keysNodup (setKey m k v) := by
  rw [setKey]
  split
  · rw [keysNodup, keys_map_replace]
    exact h
  · rename_i hany
    rw [keysNodup, List.map_append]
    rw [List.nodup_append]
    refine ⟨h, List.nodup_singleton _, ?_⟩
    intro a ha hb
    simp only [List.map_cons, List.map_nil, List.mem_singleton] at hb
    subst hb
    simp only [List.any_eq_true, decide_eq_true_eq] at hany
    obtain ⟨p, hp, hpk⟩ := List.mem_map.mp ha
    exact hany ⟨p, hp, hpk⟩

/-- Dict assignment at an already-present identical value is a no-op. -/
theorem setKey_self (k : String) (v : VmImage) :
    ∀ m : VmImagesMap, lookupKey m k = some v → keysNodup m →
      setKey m k v = m := by
  intro m
  induction m with
  | nil => intro h _; cases h
  | cons q rest ih =>
    intro hl hn
    rw [keysNodup, List.map_cons, List.nodup_cons] at hn
    rw [lookupKey] at hl
    by_cases hq : q.1 = k
    · simp only [if_pos hq] at hl
      rw [setKey, if_pos (by simp [List.any_cons, hq])]
      simp only [List.map_cons, if_pos hq]
      rw [map_replace_of_absent k v rest
        (fun p hp hpk => hn.1 (by rw [hq, ← hpk]; exact List.mem_map_of_mem Prod.fst hp))]
      rw [← hq, ← Option.some_inj.mp hl]
    · simp only [if_neg hq] at hl
      have hany : rest.any (fun p => p.1 = k) = true := any_of_lookupKey k v rest hl
      rw [setKey, if_pos (by simp [List.any_cons, hany])]
      simp only [List.map_cons, if_neg hq]
      have := ih hl hn.2
      rw [setKey, if_pos hany] at this
      rw [this]

/-- Key uniqueness of an optional vm-images dict (absent dict: trivially
unique). -/
def keysNodupOpt : Option VmImagesMap → Prop
  | none => True
  | some m => keysNodup m

instance : (om : Option VmImagesMap) → Decidable (keysNodupOpt om)
  | none => isTrue trivial
  | some m => inferInstanceAs (Decidable (keysNodup m))

/-- Per-plan key uniqueness: the plan's own dict and every
disk-generation dict hold at most one entry per release key. -/
def planKeysNodup (p : PlanSku) : Prop :=
  keysNodupOpt p.vmImages ∧ ∀ g ∈ p.diskGenerations, keysNodupOpt g.vmImages

instance (p : PlanSku) : Decidable (planKeysNodup p) :=
  inferInstanceAs (Decidable (_ ∧ _))

/-- Document-wide key uniqueness. -/
def docKeysNodup (doc : OfferDoc) : Prop := ∀ p ∈ doc.plans, planKeysNodup p

instance (doc : OfferDoc) : Decidable (docKeysNodup doc) :=
  inferInstanceAs (Decidable (∀ p ∈ doc.plans, planKeysNodup p))

theorem keysNodup_setKey_getD (om : Option VmImagesMap) (k : String)
    (v : VmImage) (h : keysNodupOpt om) : keysNodup (setKey (om.getD []) k v) := by
  cases om with
  | none => exact keysNodup_setKey [] k v (List.nodup_nil)
  | some m => exact keysNodup_setKey m k v h

theorem updateGenPlans_preserve (gid release : String) (gv : VmImage) :
    ∀ gens gens', updateGenPlans gens gid release gv = some gens' →
      (∀ g ∈ gens, keysNodupOpt g.vmImages) →
      ∀ g ∈ gens', keysNodupOpt g.vmImages := by
  intro gens
  induction gens with
  | nil => intro gens' h; cases h
  | cons p rest ih =>
    intro gens' h hall
    rw [updateGenPlans] at h
    by_cases hp : p.planId = gid
    · rw [if_pos hp] at h
      obtain rfl : _ = gens' := Option.some_inj.mp h
      intro g hg
      rcases List.mem_cons.mp hg with rfl | hgr
      · exact keysNodup_setKey_getD p.vmImages release gv
          (hall p (List.mem_cons_self p rest))
      · exact hall g (List.mem_cons_of_mem _ hgr)
    · rw [if_neg hp] at h
      cases hu : updateGenPlans rest gid release gv with
      | none => rw [hu] at h; cases h
      | some l =>
        rw [hu] at h
        obtain rfl : p :: l = gens' := Option.some_inj.mp h
        intro g hg
        rcases List.mem_cons.mp hg with rfl | hgr
        · exact hall g (List.mem_cons_self g rest)
        · exact ih l hu (fun q hq => hall q (List.mem_cons_of_mem _ hq)) g hgr

theorem addPlans_preserve (sku release : String) (version : VmImage)
    (genInfo : Option (String × VmImage)) :
    ∀ plans plans', addPlans plans sku release version genInfo = .ok plans' →
      (∀ p ∈ plans, planKeysNodup p) →
      ∀ p ∈ plans', planKeysNodup p := by
  intro plans
  induction plans with
  | nil => intro plans' h; cases h
  | cons p rest ih =>
    intro plans' h hall
    rw [addPlans] at h
    by_cases hp : p.planId = sku
    · rw [if_pos hp] at h
      cases genInfo with
      | none =>
        dsimp only at h
        obtain rfl : _ = plans' := Except.ok.inj h
        intro q hq
        rcases List.mem_cons.mp hq with rfl | hqr
        · exact ⟨keysNodup_setKey_getD p.vmImages release version
            (hall p (List.mem_cons_self p rest)).1,
            (hall p (List.mem_cons_self p rest)).2⟩
        · exact hall q (List.mem_cons_of_mem _ hqr)
      | some gi =>
        obtain ⟨gid, gv⟩ := gi
        dsimp only at h
        cases hu : updateGenPlans p.diskGenerations gid release gv with
        | none => rw [hu] at h; cases h
        | some gens =>
          rw [hu] at h
          obtain rfl : _ = plans' := Except.ok.inj h
          intro q hq
          rcases List.mem_cons.mp hq with rfl | hqr
          · refine ⟨keysNodup_setKey_getD p.vmImages release version
              (hall p (List.mem_cons_self p rest)).1, ?_⟩
            exact updateGenPlans_preserve gid release gv p.diskGenerations
              gens hu (hall p (List.mem_cons_self p rest)).2
          · exact hall q (List.mem_cons_of_mem _ hqr)
    · rw [if_neg hp] at h
      cases hu : addPlans rest sku release version genInfo with
      | error e => rw [hu] at h; cases h
      | ok l =>
        rw [hu] at h
        dsimp only [Except.map] at h
        obtain rfl : p :: l = plans' := Except.ok.inj h
        intro q hq
        rcases List.mem_cons.mp hq with rfl | hqr
        · exact hall q (List.mem_cons_self q rest)
        · exact ih l hu (fun r hr => hall r (List.mem_cons_of_mem _ hr)) q hqr

theorem deprecatePlans_all_none (imageName sku release : String) :
    ∀ plans, (∀ q ∈ plans, depLookup q sku release = none) →
      deprecatePlans plans imageName sku release = none := by
  intro plans
  induction plans with
  | nil => intro _; rfl
  | cons p rest ih =>
    intro h
    rw [deprecatePlans, h p (List.mem_cons_self p rest),
      ih (fun q hq => h q (List.mem_cons_of_mem _ hq))]
    rfl

theorem deprecatePlans_append (imageName sku release : String) :
    ∀ pre, (∀ q ∈ pre, depLookup q sku release = none) → ∀ post,
      deprecatePlans (pre ++ post) imageName sku release
        = (deprecatePlans post imageName sku release).map
            (fun r => (pre ++ r.1, r.2)) := by
  intro pre
  induction pre with
  | nil =>
    intro _ post
    cases h : deprecatePlans post imageName sku release <;> simp [h]
  | cons q pre' ih =>
    intro hpre post
    rw [List.cons_append, deprecatePlans, hpre q (List.mem_cons_self q pre')]
    rw [ih (fun r hr => hpre r (List.mem_cons_of_mem _ hr)) post]
    cases h : deprecatePlans post imageName sku release <;> simp [h]

theorem deprecatePlans_found (imageName sku release : String)
    (p : PlanSku) (post : List PlanSku) (img : VmImage)
    (hp : depLookup p sku release = some img) :
    deprecatePlans (p :: post) imageName sku release
      = if img.mediaName = imageName
        then some (depUpdatePlan p release img :: post, [])
        else some (p :: post,
          ["Deprecation image name, " ++ imageName
            ++ " does match the mediaName attribute, " ++ img.mediaName ++ "."]) := by
  rw [deprecatePlans, hp]

/-- A stored image version whose `mediaName` differs from the name being
deprecated. -/
def imgOther : VmImage := ⟨"url", "lbl", "other-image", "11/11/2011", "desc", true⟩

/-- A doc whose sku `sku1` holds a version under key `2011.11.11` with
`mediaName = other-image`. -/
def docMismatch : OfferDoc := ⟨[⟨"sku1", some [("2011.11.11", imgOther)], []⟩]⟩

/-- C7 counterexample: deprecating `foo-20111111` against a doc whose
matched SKU holds the release key `2011.11.11` but with a different
`mediaName` neither flips any lifecycle state nor raises: the doc is
returned unchanged (the stored entry still shows in the GUI) and only a
log message is emitted. -/
theorem deprecate_mismatch_no_flip_no_raise :
    deprecateImageInOfferDoc docMismatch "foo-20111111" "sku1"
      = .ok docMismatch
          ["Deprecation image name, foo-20111111 does match the mediaName attribute, other-image."] ∧
      imgOther.showInGui = true ∧
      ∀ msg, deprecateImageInOfferDoc docMismatch "foo-20111111" "sku1" ≠ .noMatch msg := by
  have h1 : deprecateImageInOfferDoc docMismatch "foo-20111111" "sku1"
      = .ok docMismatch
          ["Deprecation image name, foo-20111111 does match the mediaName attribute, other-image."] := by
    rfl
  refine ⟨h1, rfl, fun msg h => ?_⟩
  rw [h1] at h
  exact DeprecateResult.noConfusion h

/-- C7 (amended): `deprecate_image_in_offer_doc` behaves as follows.  An
image name with no 8-digit run returns the doc unchanged without error; an
unparseable leftmost run raises `ValueError`.  Otherwise, with the release
key derived from the name: at the first plan whose `planId` equals the sku
and whose non-empty vm-images dict holds the release key, the entry's
`showInGui` is set to `False` when its `mediaName` equals the image name,
and when the `mediaName` differs the doc is returned unchanged with only a
log message (no exception); when no plan matches, the
`AzureCloudPartnerException` no-match error is raised. -/
theorem deprecateImageInOfferDoc_behaviour (doc : OfferDoc)
    (imageName sku : String) :
    (findEight imageName.data = none →
      deprecateImageInOfferDoc doc imageName sku = .ok doc []) ∧
    (∀ ds, findEight imageName.data = some ds → parseYMD ds = none →
      ∃ e, deprecateImageInOfferDoc doc imageName sku = .parseError e) ∧
    (∀ ds rd, findEight imageName.data = some ds → parseYMD ds = some rd →
      ((∀ q ∈ doc.plans, depLookup q sku (formatDotted rd) = none) →
        ∃ e, deprecateImageInOfferDoc doc imageName sku = .noMatch e) ∧
      (∀ pre p post img, doc.plans = pre ++ p :: post →
        (∀ q ∈ pre, depLookup q sku (formatDotted rd) = none) →
        depLookup p sku (formatDotted rd) = some img →
        (img.mediaName = imageName →
          deprecateImageInOfferDoc doc imageName sku
            = .ok ⟨pre ++ depUpdatePlan p (formatDotted rd) img :: post⟩ []) ∧
        (img.mediaName ≠ imageName →
          deprecateImageInOfferDoc doc imageName sku
            = .ok doc
                ["Deprecation image name, " ++ imageName
                  ++ " does match the mediaName attribute, "
                  ++ img.mediaName ++ "."]))) := by
  refine ⟨fun h => ?_, fun ds h1 h2 => ?_,
    fun ds rd h1 h2 => ⟨fun hall => ?_,
      fun pre p post img hsplit hpre hp => ⟨fun hm => ?_, fun hm => ?_⟩⟩⟩
  · rw [deprecateImageInOfferDoc, h]
  · refine ⟨"ValueError: time data " ++ String.mk ds
      ++ " does not match format %Y%m%d", ?_⟩
    rw [deprecateImageInOfferDoc, h1]
    dsimp only
    rw [h2]
  · refine ⟨"No Match found for image in the SKU: " ++ sku
      ++ ". Offer doc not updated properly.", ?_⟩
    rw [deprecateImageInOfferDoc, h1]
    dsimp only
    rw [h2]
    dsimp only
    rw [deprecatePlans_all_none imageName sku (formatDotted rd) doc.plans hall]
  · rw [deprecateImageInOfferDoc, h1]
    dsimp only
    rw [h2]
    dsimp only
    rw [hsplit,
      deprecatePlans_append imageName sku (formatDotted rd) pre hpre (p :: post),
      deprecatePlans_found imageName sku (formatDotted rd) p post img hp,
      if_pos hm]
    rfl
  · rw [deprecateImageInOfferDoc, h1]
    dsimp only
    rw [h2]
    dsimp only
    rw [hsplit,
      deprecatePlans_append imageName sku (formatDotted rd) pre hpre (p :: post),
      deprecatePlans_found imageName sku (formatDotted rd) p post img hp,
      if_neg hm]
    show DeprecateResult.ok ⟨pre ++ p :: post⟩ _ = _
    rw [← hsplit]

/-- A stored version whose `mediaName` equals the name being deprecated. -/
def imgMatch : VmImage :=
  ⟨"url", "lbl", "foo-20111111", "11/11/2011", "desc", true⟩

/-- C7 amended-claim witness: a concrete successful deprecation (exact
`mediaName` match) flips `showInGui` to `False` at the matched entry. -/
theorem deprecateImageInOfferDoc_behaviour_witness :
    deprecateImageInOfferDoc
        ⟨[⟨"sku1", some [("2011.11.11", imgMatch)], []⟩]⟩ "foo-20111111" "sku1"
      = .ok ⟨[depUpdatePlan ⟨"sku1", some [("2011.11.11", imgMatch)], []⟩
          "2011.11.11" imgMatch]⟩ [] :=
  ((deprecateImageInOfferDoc_behaviour
      ⟨[⟨"sku1", some [("2011.11.11", imgMatch)], []⟩]⟩ "foo-20111111"
      "sku1").2.2 "20111111".data ⟨2011, 11, 11⟩ rfl rfl).2
    [] ⟨"sku1", some [("2011.11.11", imgMatch)], []⟩ [] imgMatch rfl
    (fun q hq => absurd hq (List.not_mem_nil q)) rfl |>.1 rfl

/-- C9: re-deprecating a version that is already deprecated (its
`showInGui` already `False` and its `mediaName` equal to the image name)
returns the document completely unchanged and raises no error. -/
theorem deprecateImageInOfferDoc_idem (doc : OfferDoc) (imageName sku : String)
    (ds : List Char) (rd : Date) (pre post : List PlanSku) (p : PlanSku)
    (m : VmImagesMap) (img : VmImage)
    (h1 : findEight imageName.data = some ds) (h2 : parseYMD ds = some rd)
    (h3 : doc.plans = pre ++ p :: post)
    (h4 : ∀ q ∈ pre, depLookup q sku (formatDotted rd) = none)
    (h5 : p.vmImages = some m)
    (h6 : depLookup p sku (formatDotted rd) = some img)
    (h7 : img.mediaName = imageName)
    (h8 : img.showInGui = false)
    (h9 : keysNodup m) :
    deprecateImageInOfferDoc doc imageName sku = .ok doc [] := by
  have himg2 : ({ img with showInGui := false } : VmImage) = img := by
    cases img
    simp only [VmImage.mk.injEq] at h8 ⊢
    simp_all
  have hlk : lookupKey m (formatDotted rd) = some img := by
    rw [depLookup] at h6
    split at h6
    · rw [h5] at h6
      exact h6
    · cases h6
  have hset : setKey m (formatDotted rd) img = m :=
    setKey_self (formatDotted rd) img m hlk h9
  have hup : depUpdatePlan p (formatDotted rd) img = p := by
    cases p with
    | mk pid pvm gens =>
      simp only at h5
      subst h5
      simp only [depUpdatePlan, himg2, Option.getD, hset]
  rw [deprecateImageInOfferDoc, h1]
  dsimp only
  rw [h2]
  dsimp only
  rw [h3,
    deprecatePlans_append imageName sku (formatDotted rd) pre h4 (p :: post),
    deprecatePlans_found imageName sku (formatDotted rd) p post img h6,
    if_pos h7]
  show DeprecateResult.ok ⟨pre ++ depUpdatePlan p (formatDotted rd) img :: post⟩ _ = _
  rw [hup, ← h3]

/-- An already-deprecated stored version. -/
def imgDeprecated : VmImage :=
  ⟨"url", "lbl", "foo-20111111", "11/11/2011", "desc", false⟩

/-- C9 witness: re-deprecating the already-deprecated `foo-20111111` in a
concrete doc returns the doc unchanged and no error. -/
theorem deprecateImageInOfferDoc_idem_witness :
    deprecateImageInOfferDoc
        ⟨[⟨"sku1", some [("2011.11.11", imgDeprecated)], []⟩]⟩
        "foo-20111111" "sku1"
      = .ok ⟨[⟨"sku1", some [("2011.11.11", imgDeprecated)], []⟩]⟩ [] :=
  deprecateImageInOfferDoc_idem
    ⟨[⟨"sku1", some [("2011.11.11", imgDeprecated)], []⟩]⟩ "foo-20111111"
    "sku1" "20111111".data ⟨2011, 11, 11⟩ [] []
    ⟨"sku1", some [("2011.11.11", imgDeprecated)], []⟩
    [("2011.11.11", imgDeprecated)] imgDeprecated rfl rfl rfl
    (fun q hq => absurd hq (List.not_mem_nil q)) rfl rfl rfl rfl (by decide)

theorem except_map_ok {ε α β : Type} (f : α → β) (e : Except ε α) (b : β)
    (h : e.map f = .ok b) : ∃ a, e = .ok a ∧ f a = b := by
  cases e with
  | error x => cases h
  | ok a => exact ⟨a, rfl, Except.ok.inj h⟩

/-- C10: every successful `add_image_version_to_offer` preserves the
at-most-one-entry-per-release-key invariant of every plan and every
disk-generation plan (so `versionNumber` uniqueness within a plan is
preserved by every addition), and the underlying dict assignment at an
existing release key overwrites that entry in place — the key set is
unchanged and the key now maps to the new version — rather than adding a
second entry. -/
theorem addImageVersionToOffer_key_uniqueness (doc : OfferDoc)
    (blobUrl description imageName label sku : String)
    (generationId suffix : Option String) (today : Date) (doc' : OfferDoc)
    (hn : docKeysNodup doc)
    (hadd : addImageVersionToOffer doc blobUrl description imageName label
      sku generationId suffix today = .ok doc') :
    docKeysNodup doc' ∧
      ∀ (m : VmImagesMap) (k : String) (v w : VmImage),
        lookupKey m k = some w →
          (setKey m k v).map Prod.fst = m.map Prod.fst ∧
            lookupKey (setKey m k v) k = some v := by
  constructor
  · rw [addImageVersionToOffer] at hadd
    cases hd : deriveReleaseDate imageName today with
    | error e => rw [hd] at hadd; cases hadd
    | ok rd =>
      rw [hd] at hadd
      dsimp only at hadd
      obtain ⟨plans', hap, hmk⟩ := except_map_ok OfferDoc.mk _ doc' hadd
      rw [← hmk]
      exact addPlans_preserve _ _ _ _ doc.plans plans' hap hn
  · intro m k v w hw
    exact setKey_present m k v (any_of_lookupKey k w m hw)

/-- C10 witness: adding `img-20230101` to a concrete doc that already
holds an entry under `2023.01.01` overwrites it in place; the resulting
doc still satisfies the key-uniqueness invariant. -/
theorem addImageVersionToOffer_key_uniqueness_witness :
    docKeysNodup ⟨[⟨"gen1",
      some [("2023.01.01", mkVersion "url2" "lbl" "img-20230101" "desc" ⟨2023, 1, 1⟩)],
      []⟩]⟩ :=
  (addImageVersionToOffer_key_uniqueness
    ⟨[⟨"gen1", some [("2023.01.01", imgOther)], []⟩]⟩
    "url2" "desc" "img-20230101" "lbl" "gen1" none none ⟨2026, 10, 12⟩
    ⟨[⟨"gen1",
      some [("2023.01.01", mkVersion "url2" "lbl" "img-20230101" "desc" ⟨2023, 1, 1⟩)],
      []⟩]⟩
    (by decide) rfl).1

/-! ## Status Interpreter (AzureImage.get_offer_status) -/

/-- One submission record as the two jmespath projections
`value[?target.targetType=='...'].{status: status, result: result}` see
it: the target type used for filtering, and the projected `status` and
`result` fields (`none` models a JSON null for an absent field). -/
structure Submission where
  targetType : String
  status : Option String
  result : Option String
deriving DecidableEq, Repr

/-- `value[?target.targetType=='preview']`, in history order. -/
def previewOps (subs : List Submission) : List Submission :=
  subs.filter (fun s => s.targetType = "preview")

/-- `value[?target.targetType=='live']`, in history order. -/
def liveOps (subs : List Submission) : List Submission :=
  subs.filter (fun s => s.targetType = "live")

/-- `get_offer_status`: the preview branch inspects only the first
preview-target submission; the live branch distinguishes exactly one and
exactly two live-target submissions, scanning the pair in history order
and returning at the first operation that is running or completed+failed;
every remaining case returns the literal `'unkown'` (misspelled in the
source).  The value is an `Option String` because the single-live
completed branch returns the projected `result` field, which can be the
JSON null. -/
def getOfferStatus (subs : List Submission) : Option String :=
  let liveBranch :=
    match liveOps subs with
    | [op] =>
      if op.status = some "completed" then op.result
      else if op.status = some "running" then some "running"
      else some "unkown"
    | [a, b] =>
      if a.status = some "running" then some "running"
      else if a.status = some "completed" ∧ a.result = some "failed" then a.result
      else if b.status = some "running" then some "running"
      else if b.status = some "completed" ∧ b.result = some "failed" then b.result
      else some "unkown"
    | _ => some "unkown"
  match previewOps subs with
  | op :: _ =>
    if op.status = some "running" then some "running"
    else if op.status = some "completed" ∧ op.result = some "failed" then op.result
    else if op.status = some "completed" ∧ op.result = some "succeeded" then
      some "waitingForPublisherReview"
    else liveBranch
  | [] => liveBranch

/-- C6 counterexample: with exactly two live-target submissions listed as
[completed+failed, running], the code returns `failed` at the first
operation of the scan although the other one is running — the claim's
rule ("running if either is running") requires `running`; moreover the
all-remaining fallback returns the literal `'unkown'`, not `'unknown'`. -/
theorem getOfferStatus_two_live_order :
    getOfferStatus [⟨"live", some "completed", some "failed"⟩,
        ⟨"live", some "running", some "pending"⟩] = some "failed" ∧
      getOfferStatus [⟨"live", some "completed", some "failed"⟩,
        ⟨"live", some "running", some "pending"⟩] ≠ some "running" ∧
      getOfferStatus [] = some "unkown" ∧
      getOfferStatus [] ≠ some "unknown" := by
  refine ⟨rfl, ?_, rfl, ?_⟩ <;> decide

/-- The §4.5 rules as amended, written as an ordered rule list over the
filtered preview and live submission sequences: the first preview
submission decides running / failed / waiting-for-review; otherwise one
live submission decides by its status; otherwise two live submissions are
scanned in history order, the first one that is running or completed with
result failed deciding; otherwise the literal `'unkown'`. -/
def deriveStatusRules (previewSubs liveSubs : List Submission) : Option String :=
  let previewRule :=
    match previewSubs with
    | [] => none
    | op :: _ =>
      if op.status = some "running" then some (some "running")
      else if op.status = some "completed" ∧ op.result = some "failed" then
        some (op.result)
      else if op.status = some "completed" ∧ op.result = some "succeeded" then
        some (some "waitingForPublisherReview")
      else none
  match previewRule with
  | some r => r
  | none =>
    match liveSubs with
    | [op] =>
      if op.status = some "completed" then op.result
      else if op.status = some "running" then some "running"
      else some "unkown"
    | [a, b] =>
      match List.findSome? (fun op =>
        if op.status = some "running" then some (some "running")
        else if op.status = some "completed" ∧ op.result = some "failed" then
          some (op.result)
        else none) [a, b] with
      | some r => r
      | none => some "unkown"
    | _ => some "unkown"

/-- C6 (amended): `get_offer_status` computes exactly the ordered-rule
status over the preview- and live-filtered submission history, where the
two-live case is decided by the first submission in history order that is
running or completed+failed (running does not take precedence across the
pair), and every remaining case yields the literal `'unkown'`. -/
theorem getOfferStatus_eq_rules (subs : List Submission) :
    getOfferStatus subs = deriveStatusRules (previewOps subs) (liveOps subs) := by
  rw [getOfferStatus, deriveStatusRules.eq_def]
  cases hp : previewOps subs with
  | nil =>
    dsimp only
    cases hl : liveOps subs with
    | nil => rfl
    | cons a l1 =>
      cases l1 with
      | nil => rfl
      | cons b l2 =>
        cases l2 with
        | nil =>
          by_cases ha1 : a.status = some "running"
          · simp [List.findSome?, ha1]
          · by_cases ha2 : a.status = some "completed" ∧ a.result = some "failed"
            · simp [List.findSome?, ha1, ha2]
            · by_cases hb1 : b.status = some "running"
              · simp [List.findSome?, ha1, ha2, hb1]
              · by_cases hb2 : b.status = some "completed" ∧ b.result = some "failed"
                · simp [List.findSome?, ha1, ha2, hb1, hb2]
                · simp [List.findSome?, ha1, ha2, hb1, hb2]
        | cons c l3 => rfl
  | cons op t =>
    dsimp only
    split
    · rfl
    · split
      · rfl
      · split
        · rfl
        · cases hl : liveOps subs with
          | nil => rfl
          | cons a l1 =>
            cases l1 with
            | nil => rfl
            | cons b l2 =>
              cases l2 with
              | nil =>
                by_cases ha1 : a.status = some "running"
                · simp [List.findSome?, ha1]
                · by_cases ha2 : a.status = some "completed" ∧ a.result = some "failed"
                  · simp [List.findSome?, ha1, ha2]
                  · by_cases hb1 : b.status = some "running"
                    · simp [List.findSome?, ha1, ha2, hb1]
                    · by_cases hb2 : b.status = some "completed" ∧ b.result = some "failed"
                      · simp [List.findSome?, ha1, ha2, hb1, hb2]
                      · simp [List.findSome?, ha1, ha2, hb1, hb2]
              | cons c l3 => rfl

end AzureImgUtils
